import Mathlib

/-!
Verification development for the Nacos service-manager extension.

The Python sources are embedded shallowly:

* `ClientConfig` models the external `v2.nacos.ClientConfig` value as far as
  this repository reads it (`server_list`, `endpoint`, `namespace_id`,
  `context_path`, `credentials_provider`, `username`, `password`).
* Python dictionaries keyed by strings are association lists with
  first-match lookup and in-place update (`dlookup` / `dinsert`).
* Python string truthiness (absent or empty is falsy) is `truthy` and the
  `a or b` idiom on optional strings is `pyOr`.
* `NacosServiceManager` instance state is `MState`; the getters, the global
  config resolution, `get_stats` and `cleanup` are explicit state-passing
  functions over it.  Raised exceptions are `Except PyError`.
* The md5 digest used by `_get_config_hash` is an uninterpreted parameter
  `digest : String → String`; the source truncation to 16 characters is kept.
-/

/-- Python string truthiness of an optional string: `None` and the empty
string are falsy, every other string is truthy. -/
def truthy : Option String → Bool
  | none => false
  | some s => s ≠ ""

/-- The Python idiom `a or ""` on an optional string: `None` and `""` give
`""`, otherwise the string itself. -/
def orEmptyStr : Option String → String
  | none => ""
  | some s => s

/-- The Python idiom `a or b` on optional strings: `a` when truthy, else `b`. -/
def pyOr (a b : Option String) : Option String :=
  if truthy a then a else b

/-- First-match lookup in a string-keyed association list, modelling a read
of a Python dict. -/
def dlookup {α : Type} (k : String) : List (String × α) → Option α
  | [] => none
  | (k', v) :: rest => if k' = k then some v else dlookup k rest

/-- Update-or-append in a string-keyed association list, modelling a write
`d[k] = v` to a Python dict (an existing key keeps its position). -/
def dinsert {α : Type} (k : String) (v : α) : List (String × α) → List (String × α)
  | [] => [(k, v)]
  | (k', v') :: rest =>
      if k' = k then (k', v) :: rest else (k', v') :: dinsert k v rest

/-- Static credentials exposed by a credentials provider, as read by
`_get_config_hash` via `get_credentials()`. -/
structure Credentials where
  access_key_id : Option String
  access_key_secret : Option String
deriving DecidableEq, Repr

/-- The slice of the external `ClientConfig` structure that this repository
reads: server list, optional endpoint, namespace, context path, optional
credentials provider, optional username / password, the raw server address
string set by the builder, and the log level. -/
structure ClientConfig where
  server_list : List String := []
  server_address : Option String := none
  endpoint : Option String := none
  namespace_id : Option String := none
  context_path : Option String := none
  credentials_provider : Option Credentials := none
  username : Option String := none
  password : Option String := none
  log_level : Option String := none
deriving DecidableEq, Repr

/-- The model of Python `sorted` on a list of strings: an ascending sort
with respect to the linear order on strings. -/
def sortedStrs (l : List String) : List String :=
  List.insertionSort (· ≤ ·) l

/-- The `server_str` computed by `_get_config_hash`:
`",".join(sorted(server_list)) if server_list else ""`. -/
def serverStr (server_list : List String) : String :=
  if server_list.isEmpty then "" else ",".intercalate (sortedStrs server_list)

/-- The `access_key` extracted by `_get_config_hash` from the config's
credentials provider: on a present provider, `credentials.access_key_id or ""`,
otherwise `""`. -/
def accessKeyOf (config : ClientConfig) : String :=
  match config.credentials_provider with
  | none => ""
  | some credentials => orEmptyStr credentials.access_key_id

/-- The `hash_parts` list built by `_get_config_hash`: server string,
endpoint, namespace, context path, access key, username; secret fields
(`password`, secret key) are never read. -/
def hash_parts (config : ClientConfig) : List String :=
  [ serverStr config.server_list
  , orEmptyStr config.endpoint
  , orEmptyStr config.namespace_id
  , orEmptyStr config.context_path
  , accessKeyOf config
  , orEmptyStr config.username ]

/-- The `hash_string` fed to the digest by `_get_config_hash`:
`"|".join(hash_parts)`. -/
def hash_string (config : ClientConfig) : String :=
  "|".intercalate (hash_parts config)

/-- `NacosServiceManager._get_config_hash`: the first 16 characters of the
hex digest of `hash_string`.  The md5 hex digest itself is an uninterpreted
function parameter `digest`. -/
def get_config_hash (digest : String → String) (config : ClientConfig) : String :=
  (digest (hash_string config)).take 16

example : truthy (some "x") = true := by decide
example : pyOr (some "") (some "b") = some "b" := by decide
example : serverStr ["x"] = "x" := by decide
example : get_config_hash id { server_list := ["x"], namespace_id := some "p" } = "x||p|||" := by decide

/-- The kinds of sub-services managed by the pool. -/
inductive ServiceKind where
  | naming
  | config
  | ai
deriving DecidableEq, Repr

/-- A constructed sub-service instance.  `id` is the model-level creation
sequence number (each call to an SDK `create_*_service` constructor yields
a fresh instance). -/
structure Handle where
  kind : ServiceKind
  id : Nat
deriving DecidableEq, Repr

/-- A value stored in a service-group dict: either the bookkeeping
`ClientConfig` (stored under the key `"config"` by `get_naming_service` and
`get_ai_service`) or a constructed sub-service handle. -/
inductive PoolEntry where
  | cfg (c : ClientConfig)
  | handle (h : Handle)
deriving DecidableEq, Repr

/-- A service group: the Python dict `self._service_pool[config_hash]`. -/
abbrev ServiceGroup := List (String × PoolEntry)

/-- Python exceptions raised by the embedded code paths. -/
inductive PyError where
  | valueError (msg : String)
  | attributeError
  | keyError
deriving DecidableEq, Repr

/-- The process environment after any dotenv merge, as consulted by
`os.getenv`: a finite map from variable names to values. -/
abbrev Env := List (String × String)

/-- Model of `os.getenv(k)`. -/
def getenv (env : Env) (k : String) : Option String := dlookup k env

/-- Model of `os.getenv(k, d)`: the default applies only when the variable
is unset (an empty value stays empty). -/
def getenvD (env : Env) (k d : String) : String := (getenv env k).getD d

/-- The message of the `ValueError` raised by `load_config_from_env` when no
server-address variable is truthy (the source message continues with an
example address on a second line). -/
def missingServerAddrMsg : String :=
  "Missing required environment variable: NACOS_SERVER_ADDR"

/-- `NacosServiceManager.load_config_from_env`.  Reads
`NACOS_SERVER_ADDR or NACOS_SERVER_ADDRESS` (Python truthiness), defaults the
namespace to `"public"` when `NACOS_NAMESPACE_ID` is unset, and prefers
the access-key/secret-key pair (both truthy) over username/password.  The
external `ClientConfigBuilder` is modelled by recording the builder calls:
the raw address string, its comma-split into `server_list` (the SDK address
convention), and a static credentials provider for the access-key pair. -/
def load_config_from_env (env : Env) : Except PyError ClientConfig :=
  let server_address := pyOr (getenv env "NACOS_SERVER_ADDR")
      (getenv env "NACOS_SERVER_ADDRESS")
  let namespace_id := getenvD env "NACOS_NAMESPACE_ID" "public"
  if truthy server_address = false then
    .error (.valueError missingServerAddrMsg)
  else
    let access_key := getenv env "NACOS_ACCESS_KEY"
    let secret_key := getenv env "NACOS_SECRET_KEY"
    let base : ClientConfig :=
      { server_list := (server_address.getD "").splitOn ","
      , server_address := server_address
      , namespace_id := some namespace_id
      , log_level := some (getenvD env "NACOS_LOG_LEVEL" "INFO") }
    if truthy access_key && truthy secret_key then
      .ok { base with credentials_provider := some ⟨access_key, secret_key⟩ }
    else
      .ok { base with
              username := some (getenvD env "NACOS_USERNAME" "nacos")
            , password := some (getenvD env "NACOS_PASSWORD" "nacos") }

/-- The mutable state of the `NacosServiceManager` singleton: the three
global-config fields, the service pool, the per-identity lock table (the set
of hashes for which `_get_lock` has created a lock), and the model-level
creation counter for fresh handles. -/
structure MState where
  globalConfig : Option ClientConfig
  globalConfigLoaded : Bool
  globalConfigManuallySet : Bool
  servicePool : List (String × ServiceGroup)
  serviceLocks : List String
  nextId : Nat
deriving DecidableEq, Repr

/-- The state established by `__init__` on first construction. -/
def initialState : MState :=
  { globalConfig := none
  , globalConfigLoaded := false
  , globalConfigManuallySet := false
  , servicePool := []
  , serviceLocks := []
  , nextId := 0 }

/-- `NacosServiceManager._get_lock`: lazily creates the per-hash lock.  In
the sequential model the acquire/release pair is a no-op; only the lazy
creation of the lock-table entry is recorded. -/
def ensure_lock (config_hash : String) (s : MState) : MState :=
  if s.serviceLocks.contains config_hash then s
  else { s with serviceLocks := s.serviceLocks ++ [config_hash] }

/-- `NacosServiceManager._get_global_config`: lazy resolution of the global
config.  When not yet loaded and not manually set, loads from the
environment (a `ValueError` propagates and leaves the state unchanged,
including the loaded flag). -/
def getGlobalConfig (env : Env) (s : MState) :
    Except PyError (Option ClientConfig) × MState :=
  if s.globalConfigLoaded then (.ok s.globalConfig, s)
  else if s.globalConfigManuallySet then
    (.ok s.globalConfig, { s with globalConfigLoaded := true })
  else
    match load_config_from_env env with
    | .error e => (.error e, s)
    | .ok c =>
        (.ok (some c),
         { s with globalConfig := some c, globalConfigLoaded := true })

/-- `NacosServiceManager.set_global_config`. -/
def set_global_config (config : ClientConfig) (s : MState) : MState :=
  { s with globalConfig := some config
         , globalConfigManuallySet := true
         , globalConfigLoaded := true }

/-- `NacosServiceManager.reset_global_config`. -/
def reset_global_config (s : MState) : MState :=
  { s with globalConfig := none
         , globalConfigLoaded := false
         , globalConfigManuallySet := false }

/-- The config-resolution step shared by the three getters:
`config = client_config if client_config else self._get_global_config()`.
A `None` global config would fail on attribute access inside
`_get_config_hash`; that failure is surfaced here as `attributeError`. -/
def resolveConfig (env : Env) (client_config : Option ClientConfig)
    (s : MState) : Except PyError ClientConfig × MState :=
  match client_config with
  | some c => (.ok c, s)
  | none =>
      match getGlobalConfig env s with
      | (.error e, s') => (.error e, s')
      | (.ok none, s') => (.error .attributeError, s')
      | (.ok (some c), s') => (.ok c, s')

/-- `NacosServiceManager.get_naming_service` under sequential execution
(locks are free, so the lock-guarded re-checks see the same state; the lazy
lock creation performed by `_get_lock` is still recorded).  A missing group
after step 2 would be a Python `KeyError`; that branch is unreachable. -/
def get_naming_service (digest : String → String) (env : Env)
    (client_config : Option ClientConfig) (s : MState) :
    Except PyError PoolEntry × MState :=
  match resolveConfig env client_config s with
  | (.error e, s) => (.error e, s)
  | (.ok config, s) =>
    let config_hash := get_config_hash digest config
    let s :=
      if (dlookup config_hash s.servicePool).isNone then
        let s := ensure_lock config_hash s
        if (dlookup config_hash s.servicePool).isNone then
          { s with servicePool :=
              dinsert config_hash [("config", .cfg config)] s.servicePool }
        else s
      else s
    match dlookup config_hash s.servicePool with
    | none => (.error .keyError, s)
    | some service_group =>
      if (dlookup "naming" service_group).isNone then
        let s := ensure_lock config_hash s
        if (dlookup "naming" service_group).isNone then
          let h : Handle := ⟨.naming, s.nextId⟩
          let s := { s with
            servicePool := dinsert config_hash
              (dinsert "naming" (.handle h) service_group) s.servicePool
            , nextId := s.nextId + 1 }
          (.ok (.handle h), s)
        else
          match dlookup "naming" service_group with
          | some e => (.ok e, s)
          | none => (.error .keyError, s)
      else
        match dlookup "naming" service_group with
        | some e => (.ok e, s)
        | none => (.error .keyError, s)

/-- `NacosServiceManager.get_config_service`.  Note two source asymmetries
kept faithfully: a group created here is the empty dict (the producing
config is not stored), and the sub-service is stored and looked up under
the key `"config"` — the same key the other getters use for the
bookkeeping `ClientConfig`. -/
def get_config_service (digest : String → String) (env : Env)
    (client_config : Option ClientConfig) (s : MState) :
    Except PyError PoolEntry × MState :=
  match resolveConfig env client_config s with
  | (.error e, s) => (.error e, s)
  | (.ok config, s) =>
    let config_hash := get_config_hash digest config
    let s :=
      if (dlookup config_hash s.servicePool).isNone then
        let s := ensure_lock config_hash s
        if (dlookup config_hash s.servicePool).isNone then
          { s with servicePool := dinsert config_hash [] s.servicePool }
        else s
      else s
    match dlookup config_hash s.servicePool with
    | none => (.error .keyError, s)
    | some service_group =>
      if (dlookup "config" service_group).isNone then
        let s := ensure_lock config_hash s
        if (dlookup "config" service_group).isNone then
          let h : Handle := ⟨.config, s.nextId⟩
          let s := { s with
            servicePool := dinsert config_hash
              (dinsert "config" (.handle h) service_group) s.servicePool
            , nextId := s.nextId + 1 }
          (.ok (.handle h), s)
        else
          match dlookup "config" service_group with
          | some e => (.ok e, s)
          | none => (.error .keyError, s)
      else
        match dlookup "config" service_group with
        | some e => (.ok e, s)
        | none => (.error .keyError, s)

/-- `NacosServiceManager.get_ai_service`. -/
def get_ai_service (digest : String → String) (env : Env)
    (client_config : Option ClientConfig) (s : MState) :
    Except PyError PoolEntry × MState :=
  match resolveConfig env client_config s with
  | (.error e, s) => (.error e, s)
  | (.ok config, s) =>
    let config_hash := get_config_hash digest config
    let s :=
      if (dlookup config_hash s.servicePool).isNone then
        let s := ensure_lock config_hash s
        if (dlookup config_hash s.servicePool).isNone then
          { s with servicePool :=
              dinsert config_hash [("config", .cfg config)] s.servicePool }
        else s
      else s
    match dlookup config_hash s.servicePool with
    | none => (.error .keyError, s)
    | some service_group =>
      if (dlookup "ai" service_group).isNone then
        let s := ensure_lock config_hash s
        if (dlookup "ai" service_group).isNone then
          let h : Handle := ⟨.ai, s.nextId⟩
          let s := { s with
            servicePool := dinsert config_hash
              (dinsert "ai" (.handle h) service_group) s.servicePool
            , nextId := s.nextId + 1 }
          (.ok (.handle h), s)
        else
          match dlookup "ai" service_group with
          | some e => (.ok e, s)
          | none => (.error .keyError, s)
      else
        match dlookup "ai" service_group with
        | some e => (.ok e, s)
        | none => (.error .keyError, s)

/-- The value of an attribute read performed by `get_stats` on whatever is
stored under the key `"config"` of a group: the attribute of the
bookkeeping `ClientConfig` when that entry is a config, an attribute read on a
sub-service handle object (external SDK behaviour) when the key collision
put a handle there, or the literal `"unknown"` fallback when absent. -/
inductive StatsAttr where
  | fromConfig (v : Option String)
  | fromHandle (h : Handle)
  | unknown
deriving DecidableEq, Repr

/-- The `services` list computed by `get_stats` for one group:
every dict key except `"config"`. -/
def groupServices (service_group : ServiceGroup) : List String :=
  (service_group.map Prod.fst).filter (fun k => k ≠ "config")

/-- The `server` field of a `get_stats` per-config entry:
`config.server_address if config else "unknown"`. -/
def statsServerOf (service_group : ServiceGroup) : StatsAttr :=
  match dlookup "config" service_group with
  | some (.cfg c) => .fromConfig c.server_address
  | some (.handle h) => .fromHandle h
  | none => .unknown

/-- The `namespace` field of a `get_stats` per-config entry:
`config.namespace_id if config else "unknown"`. -/
def statsNamespaceOf (service_group : ServiceGroup) : StatsAttr :=
  match dlookup "config" service_group with
  | some (.cfg c) => .fromConfig c.namespace_id
  | some (.handle h) => .fromHandle h
  | none => .unknown

/-- One per-config entry of the `get_stats` result. -/
structure ConfigInfo where
  hash : String
  server : StatsAttr
  namespaceAttr : StatsAttr
  services : List String
deriving DecidableEq, Repr

/-- The `get_stats` result dict. -/
structure Stats where
  config_count : Nat
  total_services : Nat
  configs : List ConfigInfo
deriving DecidableEq, Repr

/-- `NacosServiceManager.get_stats`: a pure read of the pool. -/
def get_stats (s : MState) : Stats :=
  { config_count := s.servicePool.length
  , total_services :=
      (s.servicePool.map (fun p => (groupServices p.2).length)).sum
  , configs := s.servicePool.map (fun p =>
      { hash := p.1
      , server := statsServerOf p.2
      , namespaceAttr := statsNamespaceOf p.2
      , services := groupServices p.2 }) }

/-- Whether a pool entry is a constructed sub-service handle. -/
def isHandle : PoolEntry → Bool
  | .handle _ => true
  | .cfg _ => false

/-- The number of sub-service handles actually present in the pool. -/
def countHandles (pool : List (String × ServiceGroup)) : Nat :=
  (pool.map (fun p => (p.2.filter (fun e => isHandle e.2)).length)).sum

deriving instance DecidableEq for Except

/-- One close attempt performed by `cleanup`: the group hash, the dict key,
the handle, and the caught outcome of its close/shutdown call. -/
structure CloseAttempt where
  hash : String
  kind : String
  handle : Handle
  result : Except String Unit
deriving DecidableEq, Repr

/-- The close attempts `cleanup` performs on one group: for each of the
keys `"ai"`, `"config"`, `"naming"` present in the group, a handle gets its
close/shutdown call (outcome given by `close`, caught by the
try/except); the bookkeeping `ClientConfig` entry exposes neither `close`
nor `shutdown`, so no call is attempted on it. -/
def cleanupGroup (close : Handle → Except String Unit) (config_hash : String)
    (service_group : ServiceGroup) : List CloseAttempt :=
  ["ai", "config", "naming"].filterMap (fun service_type =>
    match dlookup service_type service_group with
    | some (.handle h) => some ⟨config_hash, service_type, h, close h⟩
    | some (.cfg _) => none
    | none => none)

/-- `NacosServiceManager.cleanup`: best-effort close of every handle (each
outcome caught and logged, never re-raised — the function returns normally
for every `close` behaviour), then both the pool map and the lock map are
cleared.  Returns the list of performed close attempts plus the final
state. -/
def cleanup (close : Handle → Except String Unit) (s : MState) :
    List CloseAttempt × MState :=
  ( s.servicePool.flatMap (fun p => cleanupGroup close p.1 p.2)
  , { s with servicePool := [], serviceLocks := [] } )

example :
    (get_naming_service id [] (some { server_list := ["x"] }) initialState).1
      = .ok (.handle ⟨.naming, 0⟩) := by decide

/-!
Concurrency model for `get_naming_service`.

N asyncio tasks run `get_naming_service` concurrently for one shared
config, hence one shared `config_hash`, its lock and its service group.
Under asyncio, code between suspension points (a contended lock acquire and
the awaited `create_naming_service` call) runs atomically; the model below
is strictly finer — every labelled program point is a scheduling point —
so any property of all its interleavings also holds for the coarser real
scheduler.  Shared state: whether the group dict exists in the pool, the
`"naming"` slot of the group, the lock holder, and the number of
`create_naming_service` calls made.  Created handles are numbered; a task
at `creating` has called the constructor and not yet stored the result,
so the handle is published only after construction completes.
-/

/-- Program counter of one task running `get_naming_service`: before the
outer group check; waiting for the lock at step 2; holding it at the step-2
re-check; before the outer `"naming"` check; waiting for the lock at step 3;
holding it at the step-3 re-check; awaiting `create_naming_service`; or
returned with a handle. -/
inductive TaskPC where
  | start
  | lock1
  | check1
  | outer2
  | lock2
  | check2
  | creating (v : Nat)
  | done (v : Nat)
deriving DecidableEq, Repr

/-- Shared state of the concurrency model (one identity). -/
structure CState where
  pcs : List TaskPC
  groupExists : Bool
  naming : Option Nat
  lock : Option Nat
  constructions : Nat
deriving DecidableEq, Repr

/-- Whether a task at this program point holds the identity lock. -/
def inCS : TaskPC → Prop
  | .start => False
  | .lock1 => False
  | .check1 => True
  | .outer2 => False
  | .lock2 => False
  | .check2 => True
  | .creating _ => True
  | .done _ => False

/-- One interleaved step of some task.  Guards on `lock` model mutual
exclusion of `asyncio.Lock`; the step-2 critical section inserts the group,
the step-3 critical section either reads the published handle or starts a
construction, and `publish` stores the constructed handle and releases the
lock in the same atomic section (no suspension point between them in the
source). -/
inductive CStep : CState → CState → Prop where
  | start_found {σ : CState} (i : Nat)
      (hpc : σ.pcs[i]? = some .start) (hg : σ.groupExists = true) :
      CStep σ { σ with pcs := σ.pcs.set i .outer2 }
  | start_missing {σ : CState} (i : Nat)
      (hpc : σ.pcs[i]? = some .start) (hg : σ.groupExists = false) :
      CStep σ { σ with pcs := σ.pcs.set i .lock1 }
  | acquire1 {σ : CState} (i : Nat)
      (hpc : σ.pcs[i]? = some .lock1) (hl : σ.lock = none) :
      CStep σ { σ with pcs := σ.pcs.set i .check1, lock := some i }
  | check1_create {σ : CState} (i : Nat)
      (hpc : σ.pcs[i]? = some .check1) (hg : σ.groupExists = false) :
      CStep σ { σ with pcs := σ.pcs.set i .outer2,
                       groupExists := true, lock := none }
  | check1_skip {σ : CState} (i : Nat)
      (hpc : σ.pcs[i]? = some .check1) (hg : σ.groupExists = true) :
      CStep σ { σ with pcs := σ.pcs.set i .outer2, lock := none }
  | outer2_found {σ : CState} (i v : Nat)
      (hpc : σ.pcs[i]? = some .outer2) (hg : σ.groupExists = true)
      (hn : σ.naming = some v) :
      CStep σ { σ with pcs := σ.pcs.set i (.done v) }
  | outer2_missing {σ : CState} (i : Nat)
      (hpc : σ.pcs[i]? = some .outer2) (hg : σ.groupExists = true)
      (hn : σ.naming = none) :
      CStep σ { σ with pcs := σ.pcs.set i .lock2 }
  | acquire2 {σ : CState} (i : Nat)
      (hpc : σ.pcs[i]? = some .lock2) (hl : σ.lock = none) :
      CStep σ { σ with pcs := σ.pcs.set i .check2, lock := some i }
  | check2_found {σ : CState} (i v : Nat)
      (hpc : σ.pcs[i]? = some .check2) (hn : σ.naming = some v) :
      CStep σ { σ with pcs := σ.pcs.set i (.done v), lock := none }
  | check2_create {σ : CState} (i : Nat)
      (hpc : σ.pcs[i]? = some .check2) (hn : σ.naming = none) :
      CStep σ { σ with pcs := σ.pcs.set i (.creating σ.constructions),
                       constructions := σ.constructions + 1 }
  | publish {σ : CState} (i v : Nat)
      (hpc : σ.pcs[i]? = some (.creating v)) :
      CStep σ { σ with pcs := σ.pcs.set i (.done v),
                       naming := some v, lock := none }

/-- Initial state: n tasks about to run, no group, no handle, lock free. -/
def initCState (n : Nat) : CState :=
  { pcs := List.replicate n .start
  , groupExists := false
  , naming := none
  , lock := none
  , constructions := 0 }

/-- States reachable by interleaving the n tasks from the initial state. -/
def Reachable (n : Nat) (σ : CState) : Prop :=
  Relation.ReflTransGen CStep (initCState n) σ

theorem getq_lt {α : Type} {l : List α} {i : Nat} {a : α}
    (h : l[i]? = some a) : i < l.length := by
  induction l generalizing i with
  | nil => simp at h
  | cons b t ih =>
      cases i with
      | zero => simp
      | succ k => simpa using @ih k (by simpa using h)

theorem getq_set_self {α : Type} (l : List α) (i : Nat) (a : α)
    (h : i < l.length) : (l.set i a)[i]? = some a := by
  induction l generalizing i with
  | nil => simp at h
  | cons b t ih =>
      cases i with
      | zero => simp [List.set]
      | succ k => simpa [List.set] using @ih k (by simpa using h)

theorem getq_set_ne {α : Type} (l : List α) {i j : Nat} (a : α)
    (h : i ≠ j) : (l.set i a)[j]? = l[j]? := by
  induction l generalizing i j with
  | nil => simp
  | cons b t ih =>
      cases i with
      | zero =>
          cases j with
          | zero => exact absurd rfl h
          | succ m => simp [List.set]
      | succ k =>
          cases j with
          | zero => simp [List.set]
          | succ m => simpa [List.set] using @ih k m (fun hk => h (by omega))

theorem getq_replicate {α : Type} {a b : α} {n i : Nat}
    (h : (List.replicate n a)[i]? = some b) : b = a := by
  induction n generalizing i with
  | zero => simp at h
  | succ m ih =>
      cases i with
      | zero => simpa [List.replicate] using h.symm
      | succ k => exact @ih k (by simpa [List.replicate] using h)

theorem set_lookup_cases {α : Type} {l : List α} {i j : Nat} {a b : α}
    (hi : i < l.length) (h : (l.set i a)[j]? = some b) :
    (i = j ∧ a = b) ∨ (i ≠ j ∧ l[j]? = some b) := by
  by_cases hij : i = j
  · subst hij
    rw [getq_set_self l i a hi] at h
    exact .inl ⟨rfl, Option.some.inj h⟩
  · exact .inr ⟨hij, by rw [getq_set_ne l a hij] at h; exact h⟩

/-- The inductive invariant of the concurrency model: the lock is held by
every task in a critical section; at most one construction ever starts; a
task awaiting construction owns handle 0, accounts for the single recorded
construction, and the slot is still empty; the published handle is handle 0
and records one construction; a finished task returned the published
handle; and a recorded construction is either published or still being
awaited by some task. -/
structure CInv (σ : CState) : Prop where
  lock_of_cs : ∀ (i : Nat) (p : TaskPC),
    σ.pcs[i]? = some p → inCS p → σ.lock = some i
  cons_le : σ.constructions ≤ 1
  creating_inv : ∀ (i v : Nat), σ.pcs[i]? = some (.creating v) →
    v = 0 ∧ σ.constructions = 1 ∧ σ.naming = none
  naming_inv : ∀ (v : Nat), σ.naming = some v → v = 0 ∧ σ.constructions = 1
  done_inv : ∀ (i v : Nat), σ.pcs[i]? = some (.done v) → σ.naming = some v
  cons_one : σ.constructions = 1 →
    σ.naming = some 0 ∨ ∃ (j : Nat), σ.pcs[j]? = some (.creating 0)

theorem cinv_init (n : Nat) : CInv (initCState n) := by
  refine ⟨?_, ?_, ?_, ?_, ?_, ?_⟩
  · intro i p hp hcs
    have := getq_replicate hp
    subst this
    exact hcs.elim
  · exact Nat.zero_le 1
  · intro i v hp
    have := getq_replicate hp
    simp at this
  · intro v hv
    exact Option.noConfusion hv
  · intro i v hp
    have := getq_replicate hp
    simp at this
  · intro h
    exact absurd h (by simp [initCState])

theorem cinv_set_benign {σ : CState} (h : CInv σ) {i : Nat} {p₀ p₁ : TaskPC}
    (hpc : σ.pcs[i]? = some p₀)
    (h1cs : ¬ inCS p₁) (h1cr : ∀ (v : Nat), p₁ ≠ .creating v)
    (h1d : ∀ (v : Nat), p₁ ≠ .done v) (h0cr : ∀ (v : Nat), p₀ ≠ .creating v) :
    CInv { σ with pcs := σ.pcs.set i p₁ } := by
  have hlen : i < σ.pcs.length := getq_lt hpc
  refine ⟨?_, h.cons_le, ?_, h.naming_inv, ?_, ?_⟩
  · intro j p hj hcs
    rcases set_lookup_cases hlen hj with ⟨hij, rfl⟩ | ⟨hij, hold⟩
    · exact absurd hcs h1cs
    · exact h.lock_of_cs j p hold hcs
  · intro j v hj
    rcases set_lookup_cases hlen hj with ⟨hij, hc⟩ | ⟨hij, hold⟩
    · exact absurd hc (h1cr v)
    · exact h.creating_inv j v hold
  · intro j v hj
    rcases set_lookup_cases hlen hj with ⟨hij, hc⟩ | ⟨hij, hold⟩
    · exact absurd hc (h1d v)
    · exact h.done_inv j v hold
  · intro hc
    rcases h.cons_one hc with hn | ⟨j, hj⟩
    · exact .inl hn
    · refine .inr ⟨j, ?_⟩
      have hij : i ≠ j := by
        intro he
        subst he
        rw [hpc] at hj
        exact (h0cr 0) (Option.some.inj hj)
      rw [getq_set_ne _ _ hij]
      exact hj

theorem cinv_step {σ σ' : CState} (h : CInv σ) (st : CStep σ σ') : CInv σ' := by
  cases st with
  | start_found i hpc hg =>
      exact cinv_set_benign h hpc (by simp [inCS]) (by simp) (by simp) (by simp)
  | start_missing i hpc hg =>
      exact cinv_set_benign h hpc (by simp [inCS]) (by simp) (by simp) (by simp)
  | outer2_missing i hpc hg hn =>
      exact cinv_set_benign h hpc (by simp [inCS]) (by simp) (by simp) (by simp)
  | acquire1 i hpc hl =>
      have hlen : i < σ.pcs.length := getq_lt hpc
      refine ⟨?_, h.cons_le, ?_, h.naming_inv, ?_, ?_⟩
      · intro j p hj hcs
        rcases set_lookup_cases hlen hj with ⟨hij, rfl⟩ | ⟨hij, hold⟩
        · exact congrArg some hij
        · have hjl := h.lock_of_cs j p hold hcs
          rw [hl] at hjl
          exact Option.noConfusion hjl
      · intro j v hj
        rcases set_lookup_cases hlen hj with ⟨hij, hc⟩ | ⟨hij, hold⟩
        · exact absurd hc (by simp)
        · exact h.creating_inv j v hold
      · intro j v hj
        rcases set_lookup_cases hlen hj with ⟨hij, hc⟩ | ⟨hij, hold⟩
        · exact absurd hc (by simp)
        · exact h.done_inv j v hold
      · intro hc
        rcases h.cons_one hc with hn | ⟨j, hj⟩
        · exact .inl hn
        · refine .inr ⟨j, ?_⟩
          have hij : i ≠ j := by
            intro he
            subst he
            rw [hpc] at hj
            simp at hj
          rw [getq_set_ne _ _ hij]
          exact hj
  | acquire2 i hpc hl =>
      have hlen : i < σ.pcs.length := getq_lt hpc
      refine ⟨?_, h.cons_le, ?_, h.naming_inv, ?_, ?_⟩
      · intro j p hj hcs
        rcases set_lookup_cases hlen hj with ⟨hij, rfl⟩ | ⟨hij, hold⟩
        · exact congrArg some hij
        · have hjl := h.lock_of_cs j p hold hcs
          rw [hl] at hjl
          exact Option.noConfusion hjl
      · intro j v hj
        rcases set_lookup_cases hlen hj with ⟨hij, hc⟩ | ⟨hij, hold⟩
        · exact absurd hc (by simp)
        · exact h.creating_inv j v hold
      · intro j v hj
        rcases set_lookup_cases hlen hj with ⟨hij, hc⟩ | ⟨hij, hold⟩
        · exact absurd hc (by simp)
        · exact h.done_inv j v hold
      · intro hc
        rcases h.cons_one hc with hn | ⟨j, hj⟩
        · exact .inl hn
        · refine .inr ⟨j, ?_⟩
          have hij : i ≠ j := by
            intro he
            subst he
            rw [hpc] at hj
            simp at hj
          rw [getq_set_ne _ _ hij]
          exact hj
  | check1_create i hpc hg =>
      have hlen : i < σ.pcs.length := getq_lt hpc
      have hlock : σ.lock = some i := h.lock_of_cs i .check1 hpc (by trivial)
      refine ⟨?_, h.cons_le, ?_, h.naming_inv, ?_, ?_⟩
      · intro j p hj hcs
        rcases set_lookup_cases hlen hj with ⟨hij, rfl⟩ | ⟨hij, hold⟩
        · exact hcs.elim
        · have hjl := h.lock_of_cs j p hold hcs
          rw [hlock] at hjl
          exact absurd (Option.some.inj hjl) hij
      · intro j v hj
        rcases set_lookup_cases hlen hj with ⟨hij, hc⟩ | ⟨hij, hold⟩
        · exact absurd hc (by simp)
        · exact h.creating_inv j v hold
      · intro j v hj
        rcases set_lookup_cases hlen hj with ⟨hij, hc⟩ | ⟨hij, hold⟩
        · exact absurd hc (by simp)
        · exact h.done_inv j v hold
      · intro hc
        rcases h.cons_one hc with hn | ⟨j, hj⟩
        · exact .inl hn
        · refine .inr ⟨j, ?_⟩
          have hij : i ≠ j := by
            intro he
            subst he
            rw [hpc] at hj
            simp at hj
          rw [getq_set_ne _ _ hij]
          exact hj
  | check1_skip i hpc hg =>
      have hlen : i < σ.pcs.length := getq_lt hpc
      have hlock : σ.lock = some i := h.lock_of_cs i .check1 hpc (by trivial)
      refine ⟨?_, h.cons_le, ?_, h.naming_inv, ?_, ?_⟩
      · intro j p hj hcs
        rcases set_lookup_cases hlen hj with ⟨hij, rfl⟩ | ⟨hij, hold⟩
        · exact hcs.elim
        · have hjl := h.lock_of_cs j p hold hcs
          rw [hlock] at hjl
          exact absurd (Option.some.inj hjl) hij
      · intro j v hj
        rcases set_lookup_cases hlen hj with ⟨hij, hc⟩ | ⟨hij, hold⟩
        · exact absurd hc (by simp)
        · exact h.creating_inv j v hold
      · intro j v hj
        rcases set_lookup_cases hlen hj with ⟨hij, hc⟩ | ⟨hij, hold⟩
        · exact absurd hc (by simp)
        · exact h.done_inv j v hold
      · intro hc
        rcases h.cons_one hc with hn | ⟨j, hj⟩
        · exact .inl hn
        · refine .inr ⟨j, ?_⟩
          have hij : i ≠ j := by
            intro he
            subst he
            rw [hpc] at hj
            simp at hj
          rw [getq_set_ne _ _ hij]
          exact hj
  | outer2_found i v hpc hg hn =>
      have hlen : i < σ.pcs.length := getq_lt hpc
      refine ⟨?_, h.cons_le, ?_, h.naming_inv, ?_, ?_⟩
      · intro j p hj hcs
        rcases set_lookup_cases hlen hj with ⟨hij, rfl⟩ | ⟨hij, hold⟩
        · exact hcs.elim
        · exact h.lock_of_cs j p hold hcs
      · intro j w hj
        rcases set_lookup_cases hlen hj with ⟨hij, hc⟩ | ⟨hij, hold⟩
        · exact absurd hc (by simp)
        · exact h.creating_inv j w hold
      · intro j w hj
        rcases set_lookup_cases hlen hj with ⟨hij, hc⟩ | ⟨hij, hold⟩
        · injection hc with hvw
          subst hvw
          exact hn
        · exact h.done_inv j w hold
      · intro hc
        rcases h.cons_one hc with hn' | ⟨j, hj⟩
        · exact .inl hn'
        · refine .inr ⟨j, ?_⟩
          have hij : i ≠ j := by
            intro he
            subst he
            rw [hpc] at hj
            simp at hj
          rw [getq_set_ne _ _ hij]
          exact hj
  | check2_found i v hpc hn =>
      have hlen : i < σ.pcs.length := getq_lt hpc
      have hlock : σ.lock = some i := h.lock_of_cs i .check2 hpc (by trivial)
      refine ⟨?_, h.cons_le, ?_, h.naming_inv, ?_, ?_⟩
      · intro j p hj hcs
        rcases set_lookup_cases hlen hj with ⟨hij, rfl⟩ | ⟨hij, hold⟩
        · exact hcs.elim
        · have hjl := h.lock_of_cs j p hold hcs
          rw [hlock] at hjl
          exact absurd (Option.some.inj hjl) hij
      · intro j w hj
        rcases set_lookup_cases hlen hj with ⟨hij, hc⟩ | ⟨hij, hold⟩
        · exact absurd hc (by simp)
        · exact h.creating_inv j w hold
      · intro j w hj
        rcases set_lookup_cases hlen hj with ⟨hij, hc⟩ | ⟨hij, hold⟩
        · injection hc with hvw
          subst hvw
          exact hn
        · exact h.done_inv j w hold
      · intro hc
        rcases h.cons_one hc with hn' | ⟨j, hj⟩
        · exact .inl hn'
        · refine .inr ⟨j, ?_⟩
          have hij : i ≠ j := by
            intro he
            subst he
            rw [hpc] at hj
            simp at hj
          rw [getq_set_ne _ _ hij]
          exact hj
  | check2_create i hpc hn =>
      have hlen : i < σ.pcs.length := getq_lt hpc
      have hlock : σ.lock = some i := h.lock_of_cs i .check2 hpc (by trivial)
      have hc0 : σ.constructions = 0 := by
        rcases Nat.lt_or_ge σ.constructions 1 with hlt | hge
        · omega
        · have hc1 : σ.constructions = 1 := le_antisymm h.cons_le hge
          rcases h.cons_one hc1 with hsome | ⟨j, hj⟩
          · rw [hn] at hsome
            exact Option.noConfusion hsome
          · have hjl := h.lock_of_cs j _ hj (by trivial)
            rw [hlock] at hjl
            have hij : i = j := Option.some.inj hjl
            subst hij
            rw [hpc] at hj
            simp at hj
      refine ⟨?_, ?_, ?_, ?_, ?_, ?_⟩
      · intro j p hj hcs
        rcases set_lookup_cases hlen hj with ⟨hij, rfl⟩ | ⟨hij, hold⟩
        · rw [← hij]
          exact hlock
        · exact h.lock_of_cs j p hold hcs
      · show σ.constructions + 1 ≤ 1
        omega
      · intro j v hj
        rcases set_lookup_cases hlen hj with ⟨hij, hc⟩ | ⟨hij, hold⟩
        · injection hc with hv
          refine ⟨by omega, ?_, hn⟩
          show σ.constructions + 1 = 1
          omega
        · obtain ⟨-, hcon, -⟩ := h.creating_inv j v hold
          exact absurd hcon (by omega)
      · intro v hv
        have hv' : σ.naming = some v := hv
        rw [hn] at hv'
        exact Option.noConfusion hv'
      · intro j v hj
        rcases set_lookup_cases hlen hj with ⟨hij, hc⟩ | ⟨hij, hold⟩
        · exact absurd hc (by simp)
        · exact h.done_inv j v hold
      · intro _
        refine .inr ⟨i, ?_⟩
        rw [getq_set_self _ _ _ hlen, hc0]
  | publish i v hpc =>
      have hlen : i < σ.pcs.length := getq_lt hpc
      have hlock : σ.lock = some i := h.lock_of_cs i _ hpc (by trivial)
      obtain ⟨hv0, hc1, hnn⟩ := h.creating_inv i v hpc
      refine ⟨?_, h.cons_le, ?_, ?_, ?_, ?_⟩
      · intro j p hj hcs
        rcases set_lookup_cases hlen hj with ⟨hij, rfl⟩ | ⟨hij, hold⟩
        · exact hcs.elim
        · have hjl := h.lock_of_cs j p hold hcs
          rw [hlock] at hjl
          exact absurd (Option.some.inj hjl) hij
      · intro j w hj
        rcases set_lookup_cases hlen hj with ⟨hij, hc⟩ | ⟨hij, hold⟩
        · exact absurd hc (by simp)
        · have hjl := h.lock_of_cs j _ hold (by trivial)
          rw [hlock] at hjl
          exact absurd (Option.some.inj hjl) hij
      · intro w hw
        have hw' : (some v : Option Nat) = some w := hw
        have hvw : v = w := Option.some.inj hw'
        exact ⟨by omega, hc1⟩
      · intro j w hj
        rcases set_lookup_cases hlen hj with ⟨hij, hc⟩ | ⟨hij, hold⟩
        · injection hc with hvw
          exact congrArg some hvw
        · have hd := h.done_inv j w hold
          rw [hnn] at hd
          exact Option.noConfusion hd
      · intro _
        exact .inl (congrArg some hv0)

theorem cinv_reachable {n : Nat} {σ : CState} (h : Reachable n σ) : CInv σ := by
  induction h with
  | refl => exact cinv_init n
  | tail _ st ih => exact cinv_step ih st

/-- The model of the A2A registry abstraction: the registry name reported
by `registry_name()` and the outcome of its external `register(...)` call
at this startup. -/
structure RegistryM where
  name : String
  register : Except String Unit
deriving DecidableEq, Repr

/-- A log event produced by the registration loop. -/
inductive RegEvent where
  | registered (name : String)
  | failed (name : String) (msg : String)
deriving DecidableEq, Repr

/-- `A2AFastAPIExtensionAdapter._register_with_all_registries`: iterates the
configured registries in order; each `register` call runs inside
try/except, so a thrown failure is caught and logged together with the
registry name and the loop continues with the next registry; the function
always returns normally. -/
def register_with_all_registries : List RegistryM → List RegEvent
  | [] => []
  | r :: rest =>
      (match r.register with
       | .ok _ => RegEvent.registered r.name
       | .error e => RegEvent.failed r.name e)
        :: register_with_all_registries rest

theorem reg_event_of_mem {rs : List RegistryM} {r : RegistryM} (hmem : r ∈ rs) :
    (match r.register with
     | .ok _ => RegEvent.registered r.name
     | .error e => RegEvent.failed r.name e)
      ∈ register_with_all_registries rs := by
  induction rs with
  | nil => cases hmem
  | cons a t ih =>
      rcases List.mem_cons.mp hmem with rfl | hmem'
      · exact List.mem_cons_self _ _
      · exact List.mem_cons_of_mem _ (ih hmem')

theorem sortedStrs_perm {l₁ l₂ : List String} (h : l₁.Perm l₂) :
    sortedStrs l₁ = sortedStrs l₂ := by
  unfold sortedStrs
  exact List.eq_of_perm_of_sorted
    ((List.perm_insertionSort (· ≤ ·) l₁).trans
      (h.trans (List.perm_insertionSort (· ≤ ·) l₂).symm))
    (List.sorted_insertionSort (· ≤ ·) l₁)
    (List.sorted_insertionSort (· ≤ ·) l₂)

theorem serverStr_perm {l₁ l₂ : List String} (h : l₁.Perm l₂) :
    serverStr l₁ = serverStr l₂ := by
  have hlen := h.length_eq
  have BEmp : l₁.isEmpty = l₂.isEmpty := by
    cases l₁ <;> cases l₂ <;> simp_all
  unfold serverStr
  rw [BEmp, sortedStrs_perm h]

/-- Congruence of the identity hash over the fields it actually reads. -/
theorem get_config_hash_congr (digest : String → String)
    {c₁ c₂ : ClientConfig}
    (hs : c₁.server_list.Perm c₂.server_list)
    (he : c₁.endpoint = c₂.endpoint)
    (hn : c₁.namespace_id = c₂.namespace_id)
    (hcp : c₁.context_path = c₂.context_path)
    (hak : accessKeyOf c₁ = accessKeyOf c₂)
    (hu : c₁.username = c₂.username) :
    get_config_hash digest c₁ = get_config_hash digest c₂ := by
  unfold get_config_hash hash_string hash_parts
  rw [serverStr_perm hs, he, hn, hcp, hak, hu]

/-- C2.  Permuting the server-address list does not change the derived
identity, and changing only secret fields (password, secret key) does not
change the derived identity, for every digest function. -/
theorem C2_identity_determinism (digest : String → String)
    (cfg : ClientConfig) (l₂ : List String) (pw sk : Option String)
    (h : cfg.server_list.Perm l₂) :
    get_config_hash digest { cfg with server_list := l₂ }
        = get_config_hash digest cfg
    ∧ get_config_hash digest
          { cfg with password := pw,
                     credentials_provider :=
                       cfg.credentials_provider.map
                         (fun c => { c with access_key_secret := sk }) }
        = get_config_hash digest cfg := by
  constructor
  · exact get_config_hash_congr digest h.symm rfl rfl rfl rfl rfl
  · refine get_config_hash_congr digest (List.Perm.refl _) rfl rfl rfl ?_ rfl
    cases hc : cfg.credentials_provider <;> simp [accessKeyOf, hc]

/-- The config used throughout the concrete executions below. -/
def cfgDemo : ClientConfig :=
  { server_list := ["localhost:8848"]
  , namespace_id := some "public"
  , username := some "nacos"
  , password := some "nacos" }

/-- A config with two server addresses, for permutation scenarios. -/
def cfgPair : ClientConfig :=
  { server_list := ["h2:8848", "h1:8848"]
  , namespace_id := some "public"
  , username := some "u" }

theorem C2_identity_determinism_witness :
    cfgPair.server_list.Perm ["h1:8848", "h2:8848"]
    ∧ (get_config_hash id { cfgPair with server_list := ["h1:8848", "h2:8848"] }
          = get_config_hash id cfgPair
       ∧ get_config_hash id
             { cfgPair with password := some "pw",
                            credentials_provider :=
                              cfgPair.credentials_provider.map
                                (fun c => { c with access_key_secret := some "sk" }) }
           = get_config_hash id cfgPair) :=
  ⟨List.Perm.swap "h1:8848" "h2:8848" [],
   C2_identity_determinism id cfgPair ["h1:8848", "h2:8848"]
     (some "pw") (some "sk") (List.Perm.swap "h1:8848" "h2:8848" [])⟩

/-- C4.  With no manually set global config, no cached one, and neither
server-address variable truthy, every getter called without an explicit
config returns the `ValueError` naming `NACOS_SERVER_ADDR` and leaves the
manager state — in particular the service pool and the lock table —
completely unchanged. -/
theorem C4_missing_server_env (digest : String → String) (env : Env)
    (s : MState)
    (h1 : truthy (getenv env "NACOS_SERVER_ADDR") = false)
    (h2 : truthy (getenv env "NACOS_SERVER_ADDRESS") = false)
    (h3 : s.globalConfigManuallySet = false)
    (h4 : s.globalConfigLoaded = false) :
    get_naming_service digest env none s
        = (.error (.valueError missingServerAddrMsg), s)
    ∧ get_config_service digest env none s
        = (.error (.valueError missingServerAddrMsg), s)
    ∧ get_ai_service digest env none s
        = (.error (.valueError missingServerAddrMsg), s) := by
  have hload : load_config_from_env env
      = .error (.valueError missingServerAddrMsg) := by
    unfold load_config_from_env
    simp [pyOr, h1, h2]
  have hres : getGlobalConfig env s
      = (.error (.valueError missingServerAddrMsg), s) := by
    unfold getGlobalConfig
    simp [h3, h4, hload]
  refine ⟨?_, ?_, ?_⟩
  · unfold get_naming_service resolveConfig
    rw [hres]
  · unfold get_config_service resolveConfig
    rw [hres]
  · unfold get_ai_service resolveConfig
    rw [hres]

theorem C4_missing_server_env_witness :
    (truthy (getenv [] "NACOS_SERVER_ADDR") = false
     ∧ truthy (getenv [] "NACOS_SERVER_ADDRESS") = false
     ∧ initialState.globalConfigManuallySet = false
     ∧ initialState.globalConfigLoaded = false)
    ∧ (get_naming_service id [] none initialState
          = (.error (.valueError missingServerAddrMsg), initialState)
       ∧ get_config_service id [] none initialState
          = (.error (.valueError missingServerAddrMsg), initialState)
       ∧ get_ai_service id [] none initialState
          = (.error (.valueError missingServerAddrMsg), initialState)) :=
  ⟨⟨by decide, by decide, rfl, rfl⟩,
   C4_missing_server_env id [] initialState (by decide) (by decide) rfl rfl⟩

/-- C7.  After `set_global_config X`, resolving the default yields `X` (the
environment is never consulted, whatever it contains), and each getter with
no explicit config behaves exactly like the same getter called with `X`;
after `reset_global_config`, the next default resolution re-derives the
config from the environment. -/
theorem C7_default_resolution_precedence (digest : String → String)
    (env : Env) (X : ClientConfig) (s : MState) :
    getGlobalConfig env (set_global_config X s)
        = (.ok (some X), set_global_config X s)
    ∧ get_naming_service digest env none (set_global_config X s)
        = get_naming_service digest env (some X) (set_global_config X s)
    ∧ get_config_service digest env none (set_global_config X s)
        = get_config_service digest env (some X) (set_global_config X s)
    ∧ get_ai_service digest env none (set_global_config X s)
        = get_ai_service digest env (some X) (set_global_config X s)
    ∧ (getGlobalConfig env (reset_global_config s)).1
        = (load_config_from_env env).map some := by
  refine ⟨rfl, rfl, rfl, rfl, ?_⟩
  cases hl : load_config_from_env env with
  | error e => simp [getGlobalConfig, reset_global_config, hl, Except.map]
  | ok c => simp [getGlobalConfig, reset_global_config, hl, Except.map]

theorem dlookup_dinsert_self {α : Type} (k : String) (v : α)
    (d : List (String × α)) : dlookup k (dinsert k v d) = some v := by
  induction d with
  | nil => simp [dinsert, dlookup]
  | cons p t ih =>
      by_cases h : p.1 = k
      · simp [dinsert, dlookup, h]
      · simp [dinsert, dlookup, h, ih]

theorem ensure_lock_servicePool (ch : String) (s : MState) :
    (ensure_lock ch s).servicePool = s.servicePool := by
  unfold ensure_lock
  split <;> rfl

theorem ensure_lock_nextId (ch : String) (s : MState) :
    (ensure_lock ch s).nextId = s.nextId := by
  unfold ensure_lock
  split <;> rfl

/-- Frame lemma for the getter with an explicit config: its returned value
depends only on the pool, the lock table and the creation counter of the
state it runs in. -/
theorem get_naming_val_frame (digest : String → String) (env : Env)
    (c : ClientConfig) {s₁ s₂ : MState}
    (hp : s₁.servicePool = s₂.servicePool)
    (hl : s₁.serviceLocks = s₂.serviceLocks)
    (hn : s₁.nextId = s₂.nextId) :
    (get_naming_service digest env (some c) s₁).1
      = (get_naming_service digest env (some c) s₂).1 := by
  obtain ⟨g1, b1, m1, pool1, locks1, nid1⟩ := s₁
  obtain ⟨g2, b2, m2, pool2, locks2, nid2⟩ := s₂
  simp only at hp hl hn
  subst hp hl hn
  cases hA : dlookup (get_config_hash digest c) pool1 with
  | none =>
      simp [get_naming_service, resolveConfig, hA, ensure_lock_servicePool,
        ensure_lock_nextId, dlookup_dinsert_self, dlookup]
  | some g =>
      cases hC : dlookup "naming" g with
      | none =>
          simp [get_naming_service, resolveConfig, hA, hC,
            ensure_lock_servicePool, ensure_lock_nextId]
      | some e =>
          simp [get_naming_service, resolveConfig, hA, hC]

/-- C10.  `set_global_config` and `reset_global_config` touch only the
three global-config fields: the service pool, the lock table and the
creation counter are unchanged, so a getter called with an explicit config
returns the same handle before and after either operation. -/
theorem C10_global_config_frame (X : ClientConfig) (s : MState) :
    (set_global_config X s).servicePool = s.servicePool
    ∧ (set_global_config X s).serviceLocks = s.serviceLocks
    ∧ (set_global_config X s).nextId = s.nextId
    ∧ (reset_global_config s).servicePool = s.servicePool
    ∧ (reset_global_config s).serviceLocks = s.serviceLocks
    ∧ (reset_global_config s).nextId = s.nextId
    ∧ (∀ (digest : String → String) (env : Env) (c : ClientConfig),
        (get_naming_service digest env (some c) (set_global_config X s)).1
          = (get_naming_service digest env (some c) s).1
        ∧ (get_naming_service digest env (some c) (reset_global_config s)).1
          = (get_naming_service digest env (some c) s).1) :=
  ⟨rfl, rfl, rfl, rfl, rfl, rfl, fun digest env c =>
    ⟨get_naming_val_frame digest env c rfl rfl rfl,
     get_naming_val_frame digest env c rfl rfl rfl⟩⟩

theorem bool_true_of_ne_false {b : Bool} (h : ¬ b = false) : b = true := by
  cases b
  · exact absurd rfl h
  · rfl

/-- What a successful `load_config_from_env` implies about the built
config. -/
theorem load_ok_elim {env : Env} {cfg : ClientConfig}
    (h : load_config_from_env env = .ok cfg) :
    truthy (pyOr (getenv env "NACOS_SERVER_ADDR")
        (getenv env "NACOS_SERVER_ADDRESS")) = true
    ∧ cfg.server_address
        = pyOr (getenv env "NACOS_SERVER_ADDR") (getenv env "NACOS_SERVER_ADDRESS")
    ∧ cfg.namespace_id = some (getenvD env "NACOS_NAMESPACE_ID" "public")
    ∧ ((truthy (getenv env "NACOS_ACCESS_KEY")
          && truthy (getenv env "NACOS_SECRET_KEY")) = true →
        cfg.credentials_provider
            = some ⟨getenv env "NACOS_ACCESS_KEY", getenv env "NACOS_SECRET_KEY"⟩
        ∧ cfg.username = none ∧ cfg.password = none)
    ∧ ((truthy (getenv env "NACOS_ACCESS_KEY")
          && truthy (getenv env "NACOS_SECRET_KEY")) = false →
        cfg.credentials_provider = none
        ∧ cfg.username = some (getenvD env "NACOS_USERNAME" "nacos")
        ∧ cfg.password = some (getenvD env "NACOS_PASSWORD" "nacos")) := by
  unfold load_config_from_env at h
  by_cases hsa : truthy (pyOr (getenv env "NACOS_SERVER_ADDR")
      (getenv env "NACOS_SERVER_ADDRESS")) = false
  · simp [hsa] at h
  · have hst := bool_true_of_ne_false hsa
    by_cases hak : (truthy (getenv env "NACOS_ACCESS_KEY")
        && truthy (getenv env "NACOS_SECRET_KEY")) = true
    · simp [hsa, hak] at h
      refine ⟨hst, ?_, ?_, fun _ => ⟨?_, ?_, ?_⟩, fun hf => ?_⟩
      · rw [← h]
      · rw [← h]
      · rw [← h]
      · rw [← h]
      · rw [← h]
      · rw [hf] at hak
        exact Bool.noConfusion hak
    · have hakf : (truthy (getenv env "NACOS_ACCESS_KEY")
          && truthy (getenv env "NACOS_SECRET_KEY")) = false := by
        cases hb : (truthy (getenv env "NACOS_ACCESS_KEY")
            && truthy (getenv env "NACOS_SECRET_KEY"))
        · rfl
        · exact absurd hb hak
      simp [hsa, hakf] at h
      refine ⟨hst, ?_, ?_, fun ht => ?_, fun _ => ⟨?_, ?_, ?_⟩⟩
      · rw [← h]
      · rw [← h]
      · rw [ht] at hakf
        exact Bool.noConfusion hakf
      · rw [← h]
      · rw [← h]
      · rw [← h]

/-- C8.  Environment loading accepts either server-address spelling
(via the `a or b` idiom), fails with the `ValueError` when neither is
truthy, defaults the namespace to `"public"` when the namespace variable is
unset, uses the access-key/secret-key pair (ignoring username/password)
when both are truthy, and otherwise falls back to username/password with
defaults `"nacos"`/`"nacos"`. -/
theorem C8_env_loading (env : Env) :
    (truthy (pyOr (getenv env "NACOS_SERVER_ADDR")
        (getenv env "NACOS_SERVER_ADDRESS")) = false →
      load_config_from_env env = .error (.valueError missingServerAddrMsg))
    ∧ (∀ (cfg : ClientConfig), load_config_from_env env = .ok cfg →
        cfg.server_address
          = pyOr (getenv env "NACOS_SERVER_ADDR") (getenv env "NACOS_SERVER_ADDRESS"))
    ∧ (∀ (cfg : ClientConfig), load_config_from_env env = .ok cfg →
        getenv env "NACOS_NAMESPACE_ID" = none →
        cfg.namespace_id = some "public")
    ∧ (∀ (cfg : ClientConfig), load_config_from_env env = .ok cfg →
        truthy (getenv env "NACOS_ACCESS_KEY") = true →
        truthy (getenv env "NACOS_SECRET_KEY") = true →
        cfg.credentials_provider
            = some ⟨getenv env "NACOS_ACCESS_KEY", getenv env "NACOS_SECRET_KEY"⟩
        ∧ cfg.username = none ∧ cfg.password = none)
    ∧ (∀ (cfg : ClientConfig), load_config_from_env env = .ok cfg →
        (truthy (getenv env "NACOS_ACCESS_KEY")
           && truthy (getenv env "NACOS_SECRET_KEY")) = false →
        cfg.credentials_provider = none
        ∧ cfg.username = some (getenvD env "NACOS_USERNAME" "nacos")
        ∧ cfg.password = some (getenvD env "NACOS_PASSWORD" "nacos")) := by
  refine ⟨?_, ?_, ?_, ?_, ?_⟩
  · intro hf
    unfold load_config_from_env
    simp [hf]
  · intro cfg hcfg
    exact (load_ok_elim hcfg).2.1
  · intro cfg hcfg hns
    have := (load_ok_elim hcfg).2.2.1
    rw [this]
    unfold getenvD
    rw [hns]
    rfl
  · intro cfg hcfg ha hs
    exact (load_ok_elim hcfg).2.2.2.1 (by rw [ha, hs]; rfl)
  · intro cfg hcfg hf
    exact (load_ok_elim hcfg).2.2.2.2 hf

theorem C8_env_loading_witness :
    (load_config_from_env [("NACOS_SERVER_ADDRESS", "h1:8848")]
        = .ok { server_list := "h1:8848".splitOn ","
              , server_address := some "h1:8848"
              , namespace_id := some "public"
              , username := some "nacos"
              , password := some "nacos"
              , log_level := some "INFO" }
     ∧ getenv [("NACOS_SERVER_ADDRESS", "h1:8848")] "NACOS_NAMESPACE_ID" = none)
    ∧ ({ server_list := "h1:8848".splitOn ","
       , server_address := some "h1:8848"
       , namespace_id := some "public"
       , username := some "nacos"
       , password := some "nacos"
       , log_level := some "INFO" } : ClientConfig).namespace_id = some "public" :=
  ⟨⟨rfl, by decide⟩,
   (C8_env_loading [("NACOS_SERVER_ADDRESS", "h1:8848")]).2.2.1 _ rfl (by decide)⟩

/-- C1.  The bookkeeping `ClientConfig` and the config-kind sub-service
share the dict key `"config"`.  On a fresh manager, after
`get_naming_service(cfgDemo)` creates the group with its `"config"`
bookkeeping entry, `get_config_service(cfgDemo)` finds that key occupied
and returns the stored `ClientConfig` itself — not a config-service
handle — and performs no construction (the creation counter stays at 1,
the naming handle). -/
theorem C1_config_key_collision :
    (get_naming_service id [] (some cfgDemo) initialState).1
        = .ok (.handle ⟨.naming, 0⟩)
    ∧ (get_config_service id [] (some cfgDemo)
          (get_naming_service id [] (some cfgDemo) initialState).2).1
        = .ok (.cfg cfgDemo)
    ∧ (get_config_service id [] (some cfgDemo)
          (get_naming_service id [] (some cfgDemo) initialState).2).2.nextId
        = 1 := by
  refine ⟨by decide, by decide, by decide⟩

/-- C5.  On a fresh manager, a single `get_config_service(cfgDemo)` call
creates one sub-service handle, stored under the key `"config"`.
`get_stats` then reports zero services and an empty kinds list for the
group, because it excludes the key `"config"` as bookkeeping — the
config-kind handle is invisible in the statistics. -/
theorem C5_stats_exclude_config_kind :
    (get_config_service id [] (some cfgDemo) initialState).1
        = .ok (.handle ⟨.config, 0⟩)
    ∧ countHandles
        (get_config_service id [] (some cfgDemo) initialState).2.servicePool = 1
    ∧ (get_stats (get_config_service id [] (some cfgDemo) initialState).2).total_services
        = 0
    ∧ (get_stats (get_config_service id [] (some cfgDemo) initialState).2).configs.map
        (fun ci => ci.services) = [[]]
    ∧ (get_stats (get_config_service id [] (some cfgDemo) initialState).2).config_count
        = 1 := by
  refine ⟨by decide, by decide, by decide, by decide, by decide⟩

/-- C6.  `cleanup` always returns normally whatever each close call does;
it clears both the pool map and the lock table; it attempts a close on
every sub-service handle stored under one of the kind keys of any group;
and a second `cleanup` finds the empty pool, performs no close attempts
and is a no-op on the state. -/
theorem C6_cleanup_best_effort (close : Handle → Except String Unit)
    (s : MState) :
    (cleanup close s).2.servicePool = []
    ∧ (cleanup close s).2.serviceLocks = []
    ∧ (∀ (ch : String) (g : ServiceGroup), (ch, g) ∈ s.servicePool →
        ∀ (ty : String) (hd : Handle),
          dlookup ty g = some (.handle hd) →
          ty ∈ (["ai", "config", "naming"] : List String) →
          (⟨ch, ty, hd, close hd⟩ : CloseAttempt) ∈ (cleanup close s).1)
    ∧ cleanup close (cleanup close s).2 = ([], (cleanup close s).2) := by
  refine ⟨rfl, rfl, ?_, rfl⟩
  intro ch g hmem ty hd hdl hty
  show (⟨ch, ty, hd, close hd⟩ : CloseAttempt)
      ∈ s.servicePool.flatMap (fun p => cleanupGroup close p.1 p.2)
  rw [List.mem_flatMap]
  refine ⟨(ch, g), hmem, ?_⟩
  unfold cleanupGroup
  rw [List.mem_filterMap]
  exact ⟨ty, hty, by rw [hdl]⟩

/-- The service group used in the cleanup scenario: a bookkeeping config
plus a naming handle. -/
def gCleanupDemo : ServiceGroup :=
  [("config", .cfg cfgDemo), ("naming", .handle ⟨.naming, 0⟩)]

/-- A manager state holding one group with a bookkeeping config and a
naming handle, for the cleanup scenario. -/
def sCleanupDemo : MState :=
  { initialState with
      servicePool := [("h", gCleanupDemo)]
    , serviceLocks := ["h"] }

theorem C6_cleanup_best_effort_witness :
    (("h", gCleanupDemo) ∈ sCleanupDemo.servicePool
     ∧ dlookup "naming" gCleanupDemo = some (.handle ⟨.naming, 0⟩)
     ∧ "naming" ∈ (["ai", "config", "naming"] : List String))
    ∧ (⟨"h", "naming", ⟨.naming, 0⟩, Except.error "boom"⟩ : CloseAttempt)
        ∈ (cleanup (fun _ => Except.error "boom") sCleanupDemo).1 :=
  ⟨⟨by decide, by decide, by decide⟩,
   (C6_cleanup_best_effort (fun _ => Except.error "boom") sCleanupDemo).2.2.1
     "h" gCleanupDemo (by decide) "naming" ⟨.naming, 0⟩ (by decide) (by decide)⟩

/-- C9.  Each registry in the list is attempted independently: the loop
produces one event per registry, a throwing `register` yields a logged
failure event carrying the registry name while later registries still run,
and for the scenario `[R1 fails, R2 succeeds]` the result is exactly the
failure log for R1 followed by the successful registration of R2. -/
theorem C9_registration_failures_isolated (rs : List RegistryM)
    (r1name r2name emsg : String) :
    register_with_all_registries
        [⟨r1name, .error emsg⟩, ⟨r2name, .ok ()⟩]
      = [.failed r1name emsg, .registered r2name]
    ∧ (register_with_all_registries rs).length = rs.length
    ∧ (∀ (r : RegistryM), r ∈ rs →
        (∀ (u : Unit), r.register = .ok u →
          RegEvent.registered r.name ∈ register_with_all_registries rs)
        ∧ (∀ (e : String), r.register = .error e →
          RegEvent.failed r.name e ∈ register_with_all_registries rs)) := by
  refine ⟨rfl, ?_, ?_⟩
  · induction rs with
    | nil => rfl
    | cons a t ih => simp [register_with_all_registries, ih]
  · intro r hmem
    constructor
    · intro u hok
      have hev := reg_event_of_mem hmem
      rw [hok] at hev
      exact hev
    · intro e herr
      have hev := reg_event_of_mem hmem
      rw [herr] at hev
      exact hev

theorem C9_registration_failures_isolated_witness :
    (⟨"R2", Except.ok ()⟩ : RegistryM)
        ∈ ([⟨"R1", .error "boom"⟩, ⟨"R2", .ok ()⟩] : List RegistryM)
    ∧ RegEvent.registered "R2"
        ∈ register_with_all_registries [⟨"R1", .error "boom"⟩, ⟨"R2", .ok ()⟩] :=
  ⟨by decide,
   ((C9_registration_failures_isolated
       [⟨"R1", .error "boom"⟩, ⟨"R2", .ok ()⟩] "R1" "R2" "boom").2.2
     ⟨"R2", .ok ()⟩ (by decide)).1 () rfl⟩

/-- C3.  In every state reachable by any interleaving of the N concurrent
`get_naming_service` tasks: at most one `create_naming_service` call was
ever made; every finished task returned exactly the published handle (so
no caller sees an unpublished, still-in-construction handle) and its
completion implies the construction count is exactly one; and any two
finished tasks returned the identical handle. -/
theorem C3_unique_creation {n : Nat} {σ : CState} (h : Reachable n σ) :
    σ.constructions ≤ 1
    ∧ (∀ (i v : Nat), σ.pcs[i]? = some (.done v) →
        σ.naming = some v ∧ σ.constructions = 1)
    ∧ (∀ (i j v w : Nat), σ.pcs[i]? = some (.done v) →
        σ.pcs[j]? = some (.done w) → v = w) := by
  have hinv := cinv_reachable h
  refine ⟨hinv.cons_le, ?_, ?_⟩
  · intro i v hd
    have hn := hinv.done_inv i v hd
    exact ⟨hn, (hinv.naming_inv v hn).2⟩
  · intro i j v w hi hj
    have h1 := hinv.done_inv i v hi
    have h2 := hinv.done_inv j w hj
    rw [h1] at h2
    exact Option.some.inj h2

/-- The final state of a complete two-task interleaving in which task 0
creates the handle while task 1 contends for the lock at both stages. -/
def c3Final : CState :=
  { pcs := [.done 0, .done 0]
  , groupExists := true
  , naming := some 0
  , lock := none
  , constructions := 1 }

theorem c3_run : Reachable 2 c3Final := by
  show Relation.ReflTransGen CStep (initCState 2) c3Final
  exact
    Relation.ReflTransGen.head (CStep.start_missing 0 rfl rfl) <|
    Relation.ReflTransGen.head (CStep.start_missing 1 rfl rfl) <|
    Relation.ReflTransGen.head (CStep.acquire1 0 rfl rfl) <|
    Relation.ReflTransGen.head (CStep.check1_create 0 rfl rfl) <|
    Relation.ReflTransGen.head (CStep.acquire1 1 rfl rfl) <|
    Relation.ReflTransGen.head (CStep.check1_skip 1 rfl rfl) <|
    Relation.ReflTransGen.head (CStep.outer2_missing 0 rfl rfl rfl) <|
    Relation.ReflTransGen.head (CStep.outer2_missing 1 rfl rfl rfl) <|
    Relation.ReflTransGen.head (CStep.acquire2 0 rfl rfl) <|
    Relation.ReflTransGen.head (CStep.check2_create 0 rfl rfl) <|
    Relation.ReflTransGen.head (CStep.publish 0 0 rfl) <|
    Relation.ReflTransGen.head (CStep.acquire2 1 rfl rfl) <|
    Relation.ReflTransGen.head (CStep.check2_found 1 0 rfl rfl) <|
    Relation.ReflTransGen.refl

theorem C3_unique_creation_witness :
    Reachable 2 c3Final
    ∧ (c3Final.constructions ≤ 1
       ∧ (∀ (i v : Nat), c3Final.pcs[i]? = some (.done v) →
           c3Final.naming = some v ∧ c3Final.constructions = 1)
       ∧ (∀ (i j v w : Nat), c3Final.pcs[i]? = some (.done v) →
           c3Final.pcs[j]? = some (.done w) → v = w)) :=
  ⟨c3_run, C3_unique_creation c3_run⟩
